import Mathlib

/-
Shallow embedding of the Signal Generation & Synchronized Scan Orchestration
core of libmccdaq (src/pyodine/drivers/mcc_daq/libmccdaq.c, declarations in
libmccdaq.h).

Modelling conventions:
  - C `double` arithmetic is embedded as exact rational arithmetic (ℚ).
  - C `uint` (32-bit unsigned) subtraction is embedded with an explicit
    wrap-around modulo 2^32 wherever the source can underflow; all other
    unsigned quantities stay in ℕ because no other operation can wrap in the
    validated ranges.
  - A C cast `(uint16_t)(x + .5)` of a nonnegative double is truncation toward
    zero, i.e. the integer floor of x + 1/2; it is embedded as
    `(Int.floor (x + 1/2)).toNat`.
  - Output buffers written through pointers become `List ℕ` values transformed
    by `List.set` (which, like a store through a pointer that the caller
    guarantees to be in bounds, leaves the list unchanged on an out-of-range
    index); the C pointer offset `samples + n` becomes `List.take n ++ ...`
    on `List.drop n`.
  - Calls into the external USB transport and device-protocol collaborators
    (usbAOutScanStop, libusb_bulk_transfer, usbAInScanRead, ...) are embedded
    as emitted `DaqEvent`s, with their device-determined results (byte counts,
    status codes) passed in as explicit parameters.
-/

/-- Error codes of the driver, from libmccdaq.h. -/
inductive Error
  | kSuccess
  | kConnectionError
  | kValueError
  | kTypeError
  | kNotImplementedError
  | kOSError
  deriving DecidableEq

/-- Signal shapes, from libmccdaq.h: Descent is a ramp from max to min,
Ascent from min to max, Dip a descent followed by an ascent. -/
inductive SignalType
  | kDescent
  | kAscent
  | kDip
  deriving DecidableEq

/-- Side effects issued to the external USB/device-protocol collaborators.
Each constructor records one call made by the driver, in program order. -/
inductive DaqEvent
  | aOutScanStop
  | aOutScanClearFIFO
  | aOutBulkTransfer (requestedBytes : ℤ)
  | aOutScanStart (count : ℕ)
  | aInScanStop
  | aInScanClearFIFO
  | aInConfig (nChannels : ℕ)
  | aInScanStart (count : ℕ)
  | aInScanRead
  deriving DecidableEq

/-- kMaxAmplitude = 65535 = 2^16 - 1 (libmccdaq.c line 14). -/
def kMaxAmplitude : ℕ := 65535

/-- LIBMCCDAQ_BULK_TRANSFER_SIZE = 2560 (libmccdaq.h line 8). -/
def kBulkTransferSize : ℕ := 2560

/-- Modulus of C 32-bit unsigned arithmetic. -/
def uintMod : ℕ := 2 ^ 32

/-- Value of the C cast `(int) n` for a 32-bit unsigned n (two's complement). -/
def intOfUint (n : ℕ) : ℤ :=
  if n < 2 ^ 31 then (n : ℤ) else (n : ℤ) - 2 ^ 32

/-- VoltsToCounts (libmccdaq.c lines 335-338):
`(uint16_t) ((kMaxAmplitude * (volts + 10.) / 20.) + .5)`. -/
def VoltsToCounts (volts : ℚ) : ℕ :=
  (Int.floor ((kMaxAmplitude : ℚ) * (volts + 10) / 20 + 1 / 2)).toNat

/-- Inverse conversion used inline by SampleChannels (libmccdaq.c line 244):
`(double) rcv_data[i] / (kMaxAmplitude) * 20. - 10.`. -/
def CountsToVolts (code : ℕ) : ℚ :=
  (code : ℚ) / (kMaxAmplitude : ℚ) * 20 - 10

/-- Value stored by iteration i of the loop of IntegerSlope
(libmccdaq.c lines 342-346): the rounding cast of
`start + (stop - start) * (double) i / (n_samples - 1)`. -/
def IntegerSlopeVal (start stop n i : ℕ) : ℕ :=
  (Int.floor ((start : ℚ) + ((stop : ℚ) - (start : ℚ)) * (i : ℚ) / ((n : ℚ) - 1)
      + 1 / 2)).toNat

/-- First k iterations of the write loop of IntegerSlope. -/
def IntegerSlopeGo (start stop n : ℕ) (buf : List ℕ) : ℕ → List ℕ
  | 0 => buf
  | k + 1 => (IntegerSlopeGo start stop n buf k).set k (IntegerSlopeVal start stop n k)

/-- IntegerSlope (libmccdaq.c lines 340-348) acting on the buffer `buf` the
passed `samples` pointer gives access to; the C function additionally returns
kSuccess unconditionally. -/
def IntegerSlope (start stop n : ℕ) (buf : List ℕ) : List ℕ :=
  IntegerSlopeGo start stop n buf n

/-- First k iterations of the zero-padding loop of GenerateSignal
(libmccdaq.c lines 95-97): `samples[i] = zero` for i < k. -/
def padFill (buf : List ℕ) (z : ℕ) : ℕ → List ℕ
  | 0 => buf
  | k + 1 => (padFill buf z k).set k z

/-- The C uint expression `n_samples - n_prefix - 1` (libmccdaq.c line 89),
with 32-bit unsigned wrap-around. -/
def nSigSamples (nSamples n_pre : ℕ) : ℕ :=
  ((((nSamples : ℤ) - (n_pre : ℤ) - 1) % (uintMod : ℤ))).toNat

/-- The C uint index expression `n_samples - 1` (libmccdaq.c line 112),
with 32-bit unsigned wrap-around. -/
def finalIdx (nSamples : ℕ) : ℕ :=
  ((((nSamples : ℤ) - 1) % (uintMod : ℤ))).toNat

/-- GenerateSignal (libmccdaq.c lines 70-115).  Takes the caller's buffer and
returns the status together with the buffer contents after the call.  The
n_prefix parameter of the C function is written n_pre here. -/
def GenerateSignalRun (signal : SignalType) (nSamples n_pre : ℕ)
    (amplitude offset : ℚ) (buf : List ℕ) : Error × List ℕ :=
  if kBulkTransferSize < nSamples then (Error.kValueError, buf)
  else if nSamples < n_pre then (Error.kValueError, buf)
  else if amplitude < 0 ∨ 20 < amplitude then (Error.kValueError, buf)
  else if offset < -10 ∨ 10 < offset ∨ 10 < offset + amplitude / 2
      ∨ offset - amplitude / 2 < -10 then (Error.kValueError, buf)
  else
    let nSig := nSigSamples nSamples n_pre
    let zeroCode := VoltsToCounts offset
    let mn := VoltsToCounts (offset - amplitude / 2)
    let mx := VoltsToCounts (offset + amplitude / 2)
    let buf1 := padFill buf zeroCode n_pre
    match signal with
    | SignalType.kDescent =>
        let buf2 := buf1.take n_pre ++ IntegerSlope mx mn nSig (buf1.drop n_pre)
        (Error.kSuccess, buf2.set (finalIdx nSamples) zeroCode)
    | SignalType.kAscent =>
        let buf2 := buf1.take n_pre ++ IntegerSlope mn mx nSig (buf1.drop n_pre)
        (Error.kSuccess, buf2.set (finalIdx nSamples) zeroCode)
    | SignalType.kDip => (Error.kNotImplementedError, buf1)

/-- Indices of the output buffer stored to by GenerateSignal once validation
has passed, read off the three write sites (libmccdaq.c lines 95-97, 102/105
via IntegerSlope at pointer offset n_prefix, and 112).  On the Dip path the
function returns from inside the switch, so only the padding loop has run. -/
def GenerateSignalWriteIdx (signal : SignalType) (nSamples n_pre : ℕ) (j : ℕ) : Prop :=
  j < n_pre
  ∨ (signal ≠ SignalType.kDip ∧ ∃ i, i < nSigSamples nSamples n_pre ∧ j = n_pre + i)
  ∨ (signal ≠ SignalType.kDip ∧ j = finalIdx nSamples)

/-- Value stored by iteration i of the loop of GenerateTriangleSignal
(libmccdaq.c lines 59-67). -/
def trianglePoint (length : ℕ) (relSpan off : ℚ) (i : ℕ) : ℕ :=
  (Int.floor ((kMaxAmplitude : ℚ)
      * (|(i : ℚ) / ((length : ℚ) - 1) - 1 / 2| * 2 * relSpan + off)
      + 1 / 2)).toNat

/-- GenerateTriangleSignal (libmccdaq.c lines 46-68): V-shaped series over the
requested range, with the whole range defaulted to [-10, 10] when invalid. -/
def GenerateTriangleSignal (length : ℕ) (lo hi : ℚ) : List ℕ :=
  let bad := lo < -10 ∨ 10 < lo ∨ hi < -10 ∨ 10 < hi ∨ hi < lo
  let mn := if bad then (-10 : ℚ) else lo
  let mx := if bad then (10 : ℚ) else hi
  let relSpan := (mx - mn) / 20
  let off := (mn + 10) / 20
  (List.range length).map (trianglePoint length relSpan off)

/-- OutputSignal (libmccdaq.c lines 149-193).  The waveform buffer, the byte
count the transport reports transferred and the transport status are explicit
parameters; the returned list records the collaborator calls in program
order. -/
def OutputSignal (samplesBuf : List ℕ) (nSamples : ℕ) (sampleRate : ℚ)
    (transferredBytes usbRet : ℤ) : Error × List DaqEvent :=
  if kBulkTransferSize < 2 * nSamples % uintMod then (Error.kValueError, [])
  else if ¬ (0 < sampleRate) then (Error.kValueError, [])
  else
    let requested := 2 * intOfUint nSamples
    let pre := [DaqEvent.aOutScanStop, DaqEvent.aOutScanClearFIFO,
                DaqEvent.aOutBulkTransfer requested]
    if requested ≠ transferredBytes ∨ usbRet ≠ 0 then (Error.kConnectionError, pre)
    else (Error.kSuccess, pre ++ [DaqEvent.aOutScanStart nSamples])

/-- SampleChannels (libmccdaq.c lines 207-248).  The byte count returned by
the blocking usbAInScanRead and the post-read receive buffer contents are
explicit parameters.  A byte-count mismatch only triggers an fprintf to
stderr (lines 235-240); control then falls through to the conversion loop and
the function returns kSuccess unconditionally (line 247). -/
def SampleChannels (nChannels nSamples : ℕ) (frequency : ℚ)
    (readRet : ℤ) (rcvData : List ℕ) : Error × List DaqEvent × List ℚ :=
  let events := [DaqEvent.aInScanStop, DaqEvent.aInScanClearFIFO,
                 DaqEvent.aInConfig nChannels, DaqEvent.aInScanStart nSamples,
                 DaqEvent.aInScanRead]
  let results := (List.range (nChannels * nSamples)).map
      (fun i => (rcvData.getD i 0 : ℚ) / (kMaxAmplitude : ℚ) * 20 - 10)
  (Error.kSuccess, events, results)

/-- SampleChannelsAt10V (libmccdaq.c lines 250-260): SampleChannels with every
gain set to BP_10V. -/
def SampleChannelsAt10V (nChannels nSamples : ℕ) (frequency : ℚ)
    (readRet : ℤ) (rcvData : List ℕ) : Error × List DaqEvent × List ℚ :=
  SampleChannels nChannels nSamples frequency readRet rcvData

/-- FetchScan (libmccdaq.c lines 18-44).  Device-determined transport results
(output transfer byte count and status, input read byte count, receive buffer)
are explicit parameters; returns the status, the collaborator calls made, and
the readings handed back to the caller. -/
def FetchScan (offset amplitude duration : ℚ) (nSamples nChan : ℕ)
    (ty : SignalType) (transferredBytes usbRet readRet : ℤ)
    (rcvData : List ℕ) : Error × List DaqEvent × List ℚ :=
  if kBulkTransferSize / 2 < nSamples then (Error.kValueError, [], [])
  else
    let sampleRate := (nSamples : ℚ) / duration
    let gen := GenerateSignalRun ty nSamples 100 amplitude offset
        (List.replicate nSamples 0)
    if gen.fst ≠ Error.kSuccess then (gen.fst, [], [])
    else
      let out := OutputSignal gen.snd nSamples sampleRate transferredBytes usbRet
      if out.fst ≠ Error.kSuccess then (out.fst, out.snd, [])
      else
        let sc := SampleChannelsAt10V nChan nSamples sampleRate readRet rcvData
        (sc.fst, out.snd ++ sc.snd.fst, sc.snd.snd)

/-- Reading a list at the position just written by List.set. -/
theorem getD_set_self (l : List ℕ) (i a : ℕ) (h : i < l.length) :
    (l.set i a).getD i 0 = a := by
  simp [List.getD_eq_getElem?_getD, List.getElem?_set_self, h]

/-- Reading a list at a position other than the one written by List.set. -/
theorem getD_set_ne (l : List ℕ) (i j a : ℕ) (h : i ≠ j) :
    (l.set i a).getD j 0 = l.getD j 0 := by
  simp [List.getD_eq_getElem?_getD, List.getElem?_set_ne, h]

/-- Reading an appended list inside its first part. -/
theorem getD_append_left (l m : List ℕ) (j : ℕ) (h : j < l.length) :
    (l ++ m).getD j 0 = l.getD j 0 := by
  simp [List.getD_eq_getElem?_getD, List.getElem?_append, h]

/-- Reading a truncated list below the truncation point. -/
theorem getD_take (l : List ℕ) (n j : ℕ) (h : j < n) :
    (l.take n).getD j 0 = l.getD j 0 := by
  simp [List.getD_eq_getElem?_getD, List.getElem?_take, h]

theorem padFill_length (buf : List ℕ) (z k : ℕ) :
    (padFill buf z k).length = buf.length := by
  induction k with
  | zero => rfl
  | succ k ih => simp [padFill, ih]

theorem padFill_getD_lt (buf : List ℕ) (z k j : ℕ) (hj : j < k)
    (hlen : j < buf.length) : (padFill buf z k).getD j 0 = z := by
  induction k with
  | zero => omega
  | succ k ih =>
    by_cases h : j = k
    · subst h
      exact getD_set_self _ _ _ (by rw [padFill_length]; exact hlen)
    · have hjk : j < k := by omega
      calc ((padFill buf z k).set k z).getD j 0
          = (padFill buf z k).getD j 0 := getD_set_ne _ _ _ _ (fun hkj => h hkj.symm)
        _ = z := ih hjk

theorem padFill_getD_ge (buf : List ℕ) (z k j : ℕ) (hj : k ≤ j) :
    (padFill buf z k).getD j 0 = buf.getD j 0 := by
  induction k with
  | zero => rfl
  | succ k ih =>
    calc ((padFill buf z k).set k z).getD j 0
        = (padFill buf z k).getD j 0 := getD_set_ne _ _ _ _ (by omega)
      _ = buf.getD j 0 := ih (by omega)

theorem IntegerSlopeGo_length (start stop n : ℕ) (buf : List ℕ) (k : ℕ) :
    (IntegerSlopeGo start stop n buf k).length = buf.length := by
  induction k with
  | zero => rfl
  | succ k ih => simp [IntegerSlopeGo, ih]

theorem IntegerSlope_length (start stop n : ℕ) (buf : List ℕ) :
    (IntegerSlope start stop n buf).length = buf.length :=
  IntegerSlopeGo_length start stop n buf n

theorem IntegerSlopeGo_getD_lt (start stop n : ℕ) (buf : List ℕ) (k j : ℕ)
    (hj : j < k) (hlen : j < buf.length) :
    (IntegerSlopeGo start stop n buf k).getD j 0 = IntegerSlopeVal start stop n j := by
  induction k with
  | zero => omega
  | succ k ih =>
    by_cases h : j = k
    · subst h
      exact getD_set_self _ _ _ (by rw [IntegerSlopeGo_length]; exact hlen)
    · have hjk : j < k := by omega
      calc ((IntegerSlopeGo start stop n buf k).set k
              (IntegerSlopeVal start stop n k)).getD j 0
          = (IntegerSlopeGo start stop n buf k).getD j 0 :=
            getD_set_ne _ _ _ _ (fun hkj => h hkj.symm)
        _ = IntegerSlopeVal start stop n j := ih hjk

theorem IntegerSlope_getD (start stop n : ℕ) (buf : List ℕ) (j : ℕ)
    (hj : j < n) (hlen : j < buf.length) :
    (IntegerSlope start stop n buf).getD j 0 = IntegerSlopeVal start stop n j :=
  IntegerSlopeGo_getD_lt start stop n buf n j hj hlen

theorem finalIdx_eq (n : ℕ) (h1 : 1 ≤ n) (h2 : n < uintMod) :
    finalIdx n = n - 1 := by
  have hm : uintMod = 4294967296 := by norm_num [uintMod]
  unfold finalIdx
  rw [hm] at h2 ⊢
  push_cast
  omega

theorem nSigSamples_eq (n p : ℕ) (hp : p < n) (h2 : n < uintMod) :
    nSigSamples n p = n - p - 1 := by
  have hm : uintMod = 4294967296 := by norm_num [uintMod]
  unfold nSigSamples
  rw [hm] at h2 ⊢
  push_cast
  omega

/-- Equation for GenerateSignal when every validation check passes. -/
theorem GenerateSignalRun_valid_eq (signal : SignalType) (nSamples n_pre : ℕ)
    (amplitude offset : ℚ) (buf : List ℕ)
    (h1 : ¬ kBulkTransferSize < nSamples) (h2 : ¬ nSamples < n_pre)
    (h3 : ¬ (amplitude < 0 ∨ 20 < amplitude))
    (h4 : ¬ (offset < -10 ∨ 10 < offset ∨ 10 < offset + amplitude / 2
        ∨ offset - amplitude / 2 < -10)) :
    GenerateSignalRun signal nSamples n_pre amplitude offset buf =
      match signal with
      | SignalType.kDescent =>
          (Error.kSuccess,
           ((padFill buf (VoltsToCounts offset) n_pre).take n_pre
             ++ IntegerSlope (VoltsToCounts (offset + amplitude / 2))
                  (VoltsToCounts (offset - amplitude / 2))
                  (nSigSamples nSamples n_pre)
                  ((padFill buf (VoltsToCounts offset) n_pre).drop n_pre)).set
             (finalIdx nSamples) (VoltsToCounts offset))
      | SignalType.kAscent =>
          (Error.kSuccess,
           ((padFill buf (VoltsToCounts offset) n_pre).take n_pre
             ++ IntegerSlope (VoltsToCounts (offset - amplitude / 2))
                  (VoltsToCounts (offset + amplitude / 2))
                  (nSigSamples nSamples n_pre)
                  ((padFill buf (VoltsToCounts offset) n_pre).drop n_pre)).set
             (finalIdx nSamples) (VoltsToCounts offset))
      | SignalType.kDip =>
          (Error.kNotImplementedError, padFill buf (VoltsToCounts offset) n_pre) := by
  unfold GenerateSignalRun
  rw [if_neg h1, if_neg h2, if_neg h3, if_neg h4]

/-- Equation for GenerateSignal when the n_prefix check fires. -/
theorem GenerateSignalRun_pre_eq (signal : SignalType) (nSamples n_pre : ℕ)
    (amplitude offset : ℚ) (buf : List ℕ)
    (h1 : ¬ kBulkTransferSize < nSamples) (h2 : nSamples < n_pre) :
    GenerateSignalRun signal nSamples n_pre amplitude offset buf
      = (Error.kValueError, buf) := by
  unfold GenerateSignalRun
  rw [if_neg h1, if_pos h2]

/-- Rounding by adding one half and truncating leaves integers unchanged. -/
theorem floor_add_half (m : ℤ) : Int.floor ((m : ℚ) + 1 / 2) = m := by
  rw [add_comm, Int.floor_add_int]
  norm_num

/-- Contents of the buffer produced by the success path of GenerateSignal:
the final store pins index nSamples - 1 to the rest code, and the padding
loop's stores at indices below n_pre survive the later stores. -/
theorem genWrite_getD (buf : List ℕ) (z a b nSig n_pre nSamples : ℕ)
    (hbuf : buf.length = nSamples) (hpre : n_pre ≤ nSamples)
    (h1 : 1 ≤ nSamples) (hmax : nSamples ≤ kBulkTransferSize) :
    ((((padFill buf z n_pre).take n_pre
        ++ IntegerSlope a b nSig ((padFill buf z n_pre).drop n_pre)).set
          (finalIdx nSamples) z).getD (nSamples - 1) 0 = z)
    ∧ ∀ j, j < n_pre →
      ((((padFill buf z n_pre).take n_pre
          ++ IntegerSlope a b nSig ((padFill buf z n_pre).drop n_pre)).set
            (finalIdx nSamples) z).getD j 0 = z) := by
  have hmod : nSamples < uintMod := by
    have : kBulkTransferSize < uintMod := by norm_num [kBulkTransferSize, uintMod]
    omega
  have hfi : finalIdx nSamples = nSamples - 1 := finalIdx_eq nSamples h1 hmod
  have hL1 : (padFill buf z n_pre).length = nSamples := by
    rw [padFill_length]; exact hbuf
  have hL2 : ((padFill buf z n_pre).take n_pre
      ++ IntegerSlope a b nSig ((padFill buf z n_pre).drop n_pre)).length = nSamples := by
    rw [List.length_append, List.length_take, IntegerSlope_length, List.length_drop, hL1]
    omega
  constructor
  · rw [hfi]
    exact getD_set_self _ _ _ (by rw [hL2]; omega)
  · intro j hj
    by_cases hje : nSamples - 1 = j
    · rw [hfi, hje]
      exact getD_set_self _ _ _ (by rw [hL2]; omega)
    · rw [hfi]
      rw [getD_set_ne _ _ _ _ hje]
      have hjt : j < ((padFill buf z n_pre).take n_pre).length := by
        rw [List.length_take]; omega
      rw [getD_append_left _ _ _ hjt, getD_take _ _ _ hj]
      exact padFill_getD_lt _ _ _ _ hj (by omega)

/-- C3: for every call to GenerateSignal that returns kSuccess (on a buffer of
the stated length, with at least one sample), the last sample equals the code
for the offset voltage, and each of the first n_prefix samples equals that
code as well. -/
theorem C3_settling_invariant (signal : SignalType) (nSamples n_pre : ℕ)
    (amplitude offset : ℚ) (buf : List ℕ)
    (hbuf : buf.length = nSamples) (hn : 1 ≤ nSamples)
    (hs : (GenerateSignalRun signal nSamples n_pre amplitude offset buf).fst
        = Error.kSuccess) :
    ((GenerateSignalRun signal nSamples n_pre amplitude offset buf).snd.getD
        (nSamples - 1) 0 = VoltsToCounts offset)
    ∧ ∀ j, j < n_pre →
      (GenerateSignalRun signal nSamples n_pre amplitude offset buf).snd.getD j 0
        = VoltsToCounts offset := by
  by_cases h1 : kBulkTransferSize < nSamples
  · rw [GenerateSignalRun, if_pos h1] at hs
    simp at hs
  by_cases h2 : nSamples < n_pre
  · rw [GenerateSignalRun_pre_eq signal nSamples n_pre amplitude offset buf h1 h2] at hs
    simp at hs
  by_cases h3 : amplitude < 0 ∨ 20 < amplitude
  · rw [GenerateSignalRun, if_neg h1, if_neg h2, if_pos h3] at hs
    simp at hs
  by_cases h4 : offset < -10 ∨ 10 < offset ∨ 10 < offset + amplitude / 2
      ∨ offset - amplitude / 2 < -10
  · rw [GenerateSignalRun, if_neg h1, if_neg h2, if_neg h3, if_pos h4] at hs
    simp at hs
  have heq := GenerateSignalRun_valid_eq signal nSamples n_pre amplitude offset buf
      h1 h2 h3 h4
  cases signal with
  | kDescent =>
    rw [heq]
    exact genWrite_getD buf (VoltsToCounts offset)
      (VoltsToCounts (offset + amplitude / 2)) (VoltsToCounts (offset - amplitude / 2))
      (nSigSamples nSamples n_pre) n_pre nSamples hbuf (by omega) hn (by omega)
  | kAscent =>
    rw [heq]
    exact genWrite_getD buf (VoltsToCounts offset)
      (VoltsToCounts (offset - amplitude / 2)) (VoltsToCounts (offset + amplitude / 2))
      (nSigSamples nSamples n_pre) n_pre nSamples hbuf (by omega) hn (by omega)
  | kDip =>
    rw [heq] at hs
    simp at hs

/-- Status of a concrete valid kDescent call, used by the C3 witness. -/
theorem genRun_4_2_fst :
    (GenerateSignalRun SignalType.kDescent 4 2 2 1 [0, 0, 0, 0]).fst
      = Error.kSuccess := by
  rw [GenerateSignalRun_valid_eq SignalType.kDescent 4 2 2 1 [0, 0, 0, 0]
    (by norm_num [kBulkTransferSize]) (by norm_num)
    (by norm_num) (by norm_num)]

/-- C3 witness: a concrete kSuccess call, checked by evaluation. -/
theorem C3_settling_invariant_witness :
    ([0, 0, 0, 0] : List ℕ).length = 4 ∧ 1 ≤ 4
    ∧ (GenerateSignalRun SignalType.kDescent 4 2 2 1 [0, 0, 0, 0]).fst = Error.kSuccess
    ∧ ((GenerateSignalRun SignalType.kDescent 4 2 2 1 [0, 0, 0, 0]).snd.getD
        (4 - 1) 0 = VoltsToCounts 1
      ∧ ∀ j, j < 2 →
        (GenerateSignalRun SignalType.kDescent 4 2 2 1 [0, 0, 0, 0]).snd.getD j 0
          = VoltsToCounts 1) :=
  ⟨by decide, by decide, genRun_4_2_fst,
   C3_settling_invariant SignalType.kDescent 4 2 2 1 [0, 0, 0, 0]
     (by decide) (by decide) genRun_4_2_fst⟩

/-- C4: GenerateSignal returns kValueError exactly when one of the static
preconditions is violated (oversized sample count, prefix longer than the
total, amplitude outside [0, 20], or offset plus or minus half the amplitude outside
[-10, 10]); on that path the buffer is untouched; and a Dip request passing
all checks yields kNotImplementedError. -/
theorem C4_generate_signal_validation (signal : SignalType) (nSamples n_pre : ℕ)
    (amplitude offset : ℚ) (buf : List ℕ) :
    ((GenerateSignalRun signal nSamples n_pre amplitude offset buf).fst
        = Error.kValueError
      ↔ (kBulkTransferSize < nSamples ∨ nSamples < n_pre ∨ amplitude < 0
          ∨ 20 < amplitude ∨ 10 < offset + amplitude / 2
          ∨ offset - amplitude / 2 < -10))
    ∧ ((GenerateSignalRun signal nSamples n_pre amplitude offset buf).fst
          = Error.kValueError →
        (GenerateSignalRun signal nSamples n_pre amplitude offset buf).snd = buf)
    ∧ (¬ (kBulkTransferSize < nSamples ∨ nSamples < n_pre ∨ amplitude < 0
          ∨ 20 < amplitude ∨ 10 < offset + amplitude / 2
          ∨ offset - amplitude / 2 < -10) →
        signal = SignalType.kDip →
        (GenerateSignalRun signal nSamples n_pre amplitude offset buf).fst
          = Error.kNotImplementedError) := by
  by_cases h1 : kBulkTransferSize < nSamples
  · rw [GenerateSignalRun, if_pos h1]
    refine ⟨by simp [h1], fun _ => rfl, fun hD _ => absurd (Or.inl h1) hD⟩
  by_cases h2 : nSamples < n_pre
  · rw [GenerateSignalRun, if_neg h1, if_pos h2]
    refine ⟨by simp [h2], fun _ => rfl, fun hD _ => absurd (Or.inr (Or.inl h2)) hD⟩
  by_cases h3 : amplitude < 0 ∨ 20 < amplitude
  · rw [GenerateSignalRun, if_neg h1, if_neg h2, if_pos h3]
    have hD : kBulkTransferSize < nSamples ∨ nSamples < n_pre ∨ amplitude < 0
        ∨ 20 < amplitude ∨ 10 < offset + amplitude / 2
        ∨ offset - amplitude / 2 < -10 := by
      rcases h3 with h | h
      · exact Or.inr (Or.inr (Or.inl h))
      · exact Or.inr (Or.inr (Or.inr (Or.inl h)))
    refine ⟨by simp [hD], fun _ => rfl, fun hneg _ => absurd hD hneg⟩
  by_cases h4 : offset < -10 ∨ 10 < offset ∨ 10 < offset + amplitude / 2
      ∨ offset - amplitude / 2 < -10
  · rw [GenerateSignalRun, if_neg h1, if_neg h2, if_neg h3, if_pos h4]
    have h0 : 0 ≤ amplitude := by
      push_neg at h3
      exact h3.1
    have hD : kBulkTransferSize < nSamples ∨ nSamples < n_pre ∨ amplitude < 0
        ∨ 20 < amplitude ∨ 10 < offset + amplitude / 2
        ∨ offset - amplitude / 2 < -10 := by
      rcases h4 with h | h | h | h
      · exact Or.inr (Or.inr (Or.inr (Or.inr (Or.inr (by linarith)))))
      · exact Or.inr (Or.inr (Or.inr (Or.inr (Or.inl (by linarith)))))
      · exact Or.inr (Or.inr (Or.inr (Or.inr (Or.inl h))))
      · exact Or.inr (Or.inr (Or.inr (Or.inr (Or.inr h))))
    refine ⟨by simp [hD], fun _ => rfl, fun hneg _ => absurd hD hneg⟩
  have heq := GenerateSignalRun_valid_eq signal nSamples n_pre amplitude offset buf
      h1 h2 h3 h4
  have hnD : ¬ (kBulkTransferSize < nSamples ∨ nSamples < n_pre ∨ amplitude < 0
      ∨ 20 < amplitude ∨ 10 < offset + amplitude / 2
      ∨ offset - amplitude / 2 < -10) := by
    push_neg at h3 h4 ⊢
    exact ⟨le_of_not_lt h1, le_of_not_lt h2, h3.1, h3.2, h4.2.2.1, h4.2.2.2⟩
  refine ⟨?_, ?_, ?_⟩
  · rw [heq]
    cases signal <;> simp [hnD]
  · rw [heq]
    cases signal <;> simp
  · intro _ hsig
    subst hsig
    rw [heq]

/-- C4 witness: an oversized sample count is rejected with kValueError. -/
theorem C4_generate_signal_validation_witness :
    (GenerateSignalRun SignalType.kDescent 3000 0 1 0 []).fst = Error.kValueError :=
  (C4_generate_signal_validation SignalType.kDescent 3000 0 1 0 []).1.mpr
    (Or.inl (by norm_num [kBulkTransferSize]))

/-- C1 (evaluation at the failing input): a blocking input-scan read that
reports 100 bytes instead of the expected 2 * 2 * 1000 still makes
SampleChannels return kSuccess together with converted data, and FetchScan
therefore also returns kSuccess instead of propagating a connection error. -/
theorem C1_partial_read_returns_success :
    (SampleChannels 2 1000 1 100 (List.replicate 2000 0)).fst = Error.kSuccess
    ∧ (100 : ℤ) ≠ 2 * 2 * 1000
    ∧ (FetchScan 0 10 1 1000 2 SignalType.kDescent 2000 0 100
        (List.replicate 2000 0)).fst = Error.kSuccess := by
  refine ⟨rfl, by decide, ?_⟩
  have hgen := GenerateSignalRun_valid_eq SignalType.kDescent 1000 100 10 0
      (List.replicate 1000 0) (by norm_num [kBulkTransferSize]) (by norm_num)
      (by norm_num) (by norm_num)
  norm_num [FetchScan, hgen, OutputSignal, SampleChannelsAt10V, SampleChannels,
    intOfUint, uintMod, kBulkTransferSize]

/-- C2 counterexample: on a successful full read whose raw code is 0, the
value handed back by SampleChannels is the converted voltage -10, not the
raw digital code 0. -/
theorem C2_counterexample :
    (SampleChannels 1 1 1 2 [0]).snd.snd = [(-10 : ℚ)]
    ∧ ((-10 : ℚ)) ≠ ((0 : ℕ) : ℚ) := by
  constructor
  · norm_num [SampleChannels, kMaxAmplitude]
  · norm_num

/-- C2 amended: SampleChannels always reports kSuccess and returns the raw
codes already converted to voltages through the inverse codec mapping; the
conversion happens inside SampleChannels, not in the caller; and on every
FetchScan call that returns kSuccess the readings handed back are those
converted voltages, not the raw acquired codes. -/
theorem C2_amended_inline_conversion (offset amplitude duration freq : ℚ)
    (nSamples nChan : ℕ) (ty : SignalType) (tb st rb : ℤ) (rcv : List ℕ) :
    (SampleChannels nChan nSamples freq rb rcv).fst = Error.kSuccess
    ∧ (SampleChannels nChan nSamples freq rb rcv).snd.snd
      = (List.range (nChan * nSamples)).map
          (fun i => CountsToVolts (rcv.getD i 0))
    ∧ ((FetchScan offset amplitude duration nSamples nChan ty tb st rb rcv).fst
          = Error.kSuccess →
        (FetchScan offset amplitude duration nSamples nChan ty tb st rb rcv).snd.snd
          = (List.range (nChan * nSamples)).map
              (fun i => CountsToVolts (rcv.getD i 0))) := by
  refine ⟨rfl, rfl, ?_⟩
  simp only [FetchScan]
  split_ifs with h1 h2 h3
  · intro h
    simp at h
  · intro h
    simp at h
    exact absurd h h2
  · intro h
    simp at h
    exact absurd h h3
  · intro _
    simp [SampleChannelsAt10V, SampleChannels, CountsToVolts]

/-- Status of the concrete successful FetchScan call used by the C2 witness. -/
theorem fetchScan_1000_fst :
    (FetchScan 0 10 1 1000 2 SignalType.kDescent 2000 0 100
        (List.replicate 2000 0)).fst = Error.kSuccess := by
  have hgen := GenerateSignalRun_valid_eq SignalType.kDescent 1000 100 10 0
      (List.replicate 1000 0) (by norm_num [kBulkTransferSize]) (by norm_num)
      (by norm_num) (by norm_num)
  norm_num [FetchScan, hgen, OutputSignal, SampleChannelsAt10V, SampleChannels,
    intOfUint, uintMod, kBulkTransferSize]

/-- C2 amended witness: a concrete successful FetchScan returns the converted
voltages of its receive buffer. -/
theorem C2_amended_inline_conversion_witness :
    (FetchScan 0 10 1 1000 2 SignalType.kDescent 2000 0 100
        (List.replicate 2000 0)).fst = Error.kSuccess
    ∧ (FetchScan 0 10 1 1000 2 SignalType.kDescent 2000 0 100
        (List.replicate 2000 0)).snd.snd
      = (List.range (2 * 1000)).map
          (fun i => CountsToVolts ((List.replicate 2000 0).getD i 0)) :=
  ⟨fetchScan_1000_fst,
   (C2_amended_inline_conversion 0 10 1 1 1000 2 SignalType.kDescent 2000 0 100
      (List.replicate 2000 0)).2.2 fetchScan_1000_fst⟩

/-- C5: once validation passes, OutputSignal stops the running output scan,
clears the output FIFO, bulk-transfers 2 * n_samples bytes, and issues
scan-start with exactly n_samples, in that order; on a short transfer or a
non-zero transport status it returns kConnectionError and never issues
scan-start. -/
theorem C5_output_signal_order (nSamples : ℕ) (rate : ℚ) (tb st : ℤ)
    (buf : List ℕ) (hn : nSamples < 2 ^ 31)
    (hval : 2 * nSamples % uintMod ≤ kBulkTransferSize) (hrate : 0 < rate) :
    OutputSignal buf nSamples rate tb st =
      if tb = 2 * (nSamples : ℤ) ∧ st = 0 then
        (Error.kSuccess,
         [DaqEvent.aOutScanStop, DaqEvent.aOutScanClearFIFO,
          DaqEvent.aOutBulkTransfer (2 * (nSamples : ℤ)),
          DaqEvent.aOutScanStart nSamples])
      else
        (Error.kConnectionError,
         [DaqEvent.aOutScanStop, DaqEvent.aOutScanClearFIFO,
          DaqEvent.aOutBulkTransfer (2 * (nSamples : ℤ))]) := by
  have hcast : intOfUint nSamples = (nSamples : ℤ) := by
    unfold intOfUint
    rw [if_pos hn]
  simp only [OutputSignal, hcast]
  rw [if_neg (not_lt.mpr hval), if_neg (not_not_intro hrate)]
  by_cases h : tb = 2 * (nSamples : ℤ) ∧ st = 0
  · have hcond : ¬ (2 * (nSamples : ℤ) ≠ tb ∨ st ≠ 0) := by
      push_neg
      exact ⟨h.1.symm, h.2⟩
    rw [if_pos h, if_neg hcond]
    simp
  · have hcond : 2 * (nSamples : ℤ) ≠ tb ∨ st ≠ 0 := by
      by_contra hc
      push_neg at hc
      exact h ⟨hc.1.symm, hc.2⟩
    rw [if_neg h, if_pos hcond]

/-- C5 witness: a concrete fully successful transfer of four samples. -/
theorem C5_output_signal_order_witness :
    (4 : ℕ) < 2 ^ 31 ∧ 2 * 4 % uintMod ≤ kBulkTransferSize ∧ (0 : ℚ) < 1
    ∧ OutputSignal [] 4 1 8 0 =
      if (8 : ℤ) = 2 * ((4 : ℕ) : ℤ) ∧ (0 : ℤ) = 0 then
        (Error.kSuccess,
         [DaqEvent.aOutScanStop, DaqEvent.aOutScanClearFIFO,
          DaqEvent.aOutBulkTransfer (2 * ((4 : ℕ) : ℤ)),
          DaqEvent.aOutScanStart 4])
      else
        (Error.kConnectionError,
         [DaqEvent.aOutScanStop, DaqEvent.aOutScanClearFIFO,
          DaqEvent.aOutBulkTransfer (2 * ((4 : ℕ) : ℤ))]) :=
  ⟨by norm_num, by norm_num [uintMod, kBulkTransferSize], by norm_num,
   C5_output_signal_order 4 1 8 0 [] (by norm_num)
     (by norm_num [uintMod, kBulkTransferSize]) (by norm_num)⟩

/-- C9: FetchScan rejects every n_samples below the hard-coded prefix of 100
(the generator's n_prefix check fires) and every n_samples above 1280 (half
the bulk-transfer limit), both with kValueError and before any device
command is issued; within 100..1280, with otherwise valid arguments, it
never fails validation. -/
theorem C9_fetchscan_effective_range (offset amplitude duration : ℚ)
    (nSamples nChan : ℕ) (ty : SignalType) (tb st rb : ℤ) (rcv : List ℕ) :
    ((nSamples < 100 ∨ 1280 < nSamples) →
      FetchScan offset amplitude duration nSamples nChan ty tb st rb rcv
        = (Error.kValueError, [], []))
    ∧ (100 ≤ nSamples → nSamples ≤ 1280 → 0 < duration → 0 ≤ amplitude →
        amplitude ≤ 20 → offset + amplitude / 2 ≤ 10 →
        -10 ≤ offset - amplitude / 2 → ty ≠ SignalType.kDip →
        (FetchScan offset amplitude duration nSamples nChan ty tb st rb rcv).fst
          ≠ Error.kValueError) := by
  have hhalf : kBulkTransferSize / 2 = 1280 := by norm_num [kBulkTransferSize]
  constructor
  · rintro (hlt | hgt)
    · have hbig : ¬ kBulkTransferSize / 2 < nSamples := by rw [hhalf]; omega
      have hgen := GenerateSignalRun_pre_eq ty nSamples 100 amplitude offset
          (List.replicate nSamples 0) (by simp only [kBulkTransferSize]; omega) hlt
      simp only [FetchScan]
      rw [if_neg hbig, hgen]
      simp
    · have hbig : kBulkTransferSize / 2 < nSamples := by rw [hhalf]; omega
      simp only [FetchScan]
      rw [if_pos hbig]
  · intro h100 h1280 hdur hamp0 hamp20 hoffp hoffm hty
    have h1 : ¬ kBulkTransferSize < nSamples := by simp only [kBulkTransferSize]; omega
    have h2 : ¬ nSamples < 100 := by omega
    have h3 : ¬ (amplitude < 0 ∨ 20 < amplitude) := by
      push_neg
      exact ⟨hamp0, hamp20⟩
    have h4 : ¬ (offset < -10 ∨ 10 < offset ∨ 10 < offset + amplitude / 2
        ∨ offset - amplitude / 2 < -10) := by
      push_neg
      refine ⟨by linarith, by linarith, hoffp, hoffm⟩
    have hgen := GenerateSignalRun_valid_eq ty nSamples 100 amplitude offset
        (List.replicate nSamples 0) h1 h2 h3 h4
    have hbig : ¬ kBulkTransferSize / 2 < nSamples := by rw [hhalf]; omega
    have hrate : (0 : ℚ) < (nSamples : ℚ) / duration := by
      apply div_pos _ hdur
      have hc : (100 : ℚ) ≤ (nSamples : ℚ) := by exact_mod_cast h100
      linarith
    have hval : ¬ kBulkTransferSize < 2 * nSamples % uintMod := by
      have hm : 2 * nSamples % uintMod = 2 * nSamples :=
        Nat.mod_eq_of_lt (by simp only [uintMod]; omega)
      rw [hm]
      simp only [kBulkTransferSize]
      omega
    simp only [FetchScan]
    rw [if_neg hbig]
    cases ty with
    | kDip => exact absurd rfl hty
    | kDescent =>
      rw [hgen]
      by_cases hC : 2 * intOfUint nSamples ≠ tb ∨ st ≠ 0
      · simp [OutputSignal, hval, hrate.not_le, hC]
      · simp [OutputSignal, SampleChannelsAt10V, SampleChannels,
          hval, hrate.not_le, hC]
    | kAscent =>
      rw [hgen]
      by_cases hC : 2 * intOfUint nSamples ≠ tb ∨ st ≠ 0
      · simp [OutputSignal, hval, hrate.not_le, hC]
      · simp [OutputSignal, SampleChannelsAt10V, SampleChannels,
          hval, hrate.not_le, hC]

/-- C9 witness: 50 samples are rejected with kValueError and no device
command. -/
theorem C9_fetchscan_effective_range_witness :
    (50 : ℕ) < 100
    ∧ FetchScan 0 10 1 50 2 SignalType.kDescent 0 0 0 []
        = (Error.kValueError, [], []) :=
  ⟨by decide,
   (C9_fetchscan_effective_range 0 10 1 50 2 SignalType.kDescent 0 0 0 []).1
     (Or.inl (by decide))⟩

/-- C10 counterexample: with n_prefix = n_samples = 1 every validation check
passes and GenerateSignal reports kSuccess, yet the unsigned slope length
underflows to 2^32 - 1 and the slope loop stores to index 2, which is not
below n_samples = 1. -/
theorem C10_counterexample :
    (GenerateSignalRun SignalType.kDescent 1 1 0 0 [0]).fst = Error.kSuccess
    ∧ nSigSamples 1 1 = 4294967295
    ∧ GenerateSignalWriteIdx SignalType.kDescent 1 1 2
    ∧ ¬ (2 < 1) := by
  have hsig : nSigSamples 1 1 = 4294967295 := by
    simp only [nSigSamples, uintMod]
    norm_num
    omega
  refine ⟨?_, hsig, ?_, by decide⟩
  · rw [GenerateSignalRun_valid_eq SignalType.kDescent 1 1 0 0 [0]
      (by norm_num [kBulkTransferSize]) (by norm_num) (by norm_num) (by norm_num)]
  · refine Or.inr (Or.inl ⟨by decide, 1, ?_, rfl⟩)
    rw [hsig]
    omega

/-- C10 amended: provided n_prefix is strictly below n_samples (the
validation bound n_prefix = n_samples excluded), the unsigned slope length
does not underflow and every store of GenerateSignal falls within indices
0..n_samples-1 of the output buffer. -/
theorem C10_amended_writes_in_bounds (signal : SignalType) (nSamples n_pre : ℕ)
    (hpre : n_pre < nSamples) (hmax : nSamples ≤ kBulkTransferSize) :
    nSigSamples nSamples n_pre = nSamples - n_pre - 1
    ∧ ∀ j, GenerateSignalWriteIdx signal nSamples n_pre j → j < nSamples := by
  have hmod : nSamples < uintMod := by
    have hk : kBulkTransferSize < uintMod := by norm_num [kBulkTransferSize, uintMod]
    omega
  have hsig := nSigSamples_eq nSamples n_pre hpre hmod
  have hfi := finalIdx_eq nSamples (by omega) hmod
  refine ⟨hsig, ?_⟩
  intro j hj
  rcases hj with h | ⟨_, i, hi, rfl⟩ | ⟨_, hjf⟩
  · omega
  · rw [hsig] at hi
    omega
  · rw [hfi] at hjf
    omega

/-- C10 amended witness: three samples with a one-sample settling pad. -/
theorem C10_amended_writes_in_bounds_witness :
    (1 : ℕ) < 3 ∧ (3 : ℕ) ≤ kBulkTransferSize
    ∧ (nSigSamples 3 1 = 3 - 1 - 1
      ∧ ∀ j, GenerateSignalWriteIdx SignalType.kDescent 3 1 j → j < 3) :=
  ⟨by decide, by norm_num [kBulkTransferSize],
   C10_amended_writes_in_bounds SignalType.kDescent 3 1 (by decide)
     (by norm_num [kBulkTransferSize])⟩

theorem IntegerSlopeVal_zero (s t n : ℕ) : IntegerSlopeVal s t n 0 = s := by
  have harg : (s : ℚ) + ((t : ℚ) - (s : ℚ)) * ((0 : ℕ) : ℚ) / ((n : ℚ) - 1) + 1 / 2
      = ((s : ℤ) : ℚ) + 1 / 2 := by
    push_cast
    ring
  unfold IntegerSlopeVal
  rw [harg, floor_add_half]
  exact_mod_cast rfl

theorem IntegerSlopeVal_last (s t n : ℕ) (hn : 2 ≤ n) :
    IntegerSlopeVal s t n (n - 1) = t := by
  have h2 : (2 : ℚ) ≤ (n : ℚ) := by exact_mod_cast hn
  have hne : ((n : ℚ) - 1) ≠ 0 := by
    intro h
    linarith
  have hcast : (((n - 1 : ℕ)) : ℚ) = (n : ℚ) - 1 := by
    rw [Nat.cast_sub (by omega)]
    norm_num
  have harg : (s : ℚ) + ((t : ℚ) - (s : ℚ)) * (((n - 1 : ℕ)) : ℚ) / ((n : ℚ) - 1) + 1 / 2
      = ((t : ℤ) : ℚ) + 1 / 2 := by
    rw [hcast, mul_div_assoc, div_self hne]
    push_cast
    ring
  unfold IntegerSlopeVal
  rw [harg, floor_add_half]
  exact_mod_cast rfl

theorem IntegerSlopeVal_mono_of_le (s t n : ℕ) (hst : s ≤ t) (hn : 2 ≤ n)
    (i j : ℕ) (hij : i ≤ j) :
    IntegerSlopeVal s t n i ≤ IntegerSlopeVal s t n j := by
  apply Int.toNat_le_toNat
  apply Int.floor_le_floor
  have h0 : (0 : ℚ) ≤ (t : ℚ) - (s : ℚ) := by
    have hc : (s : ℚ) ≤ (t : ℚ) := by exact_mod_cast hst
    linarith
  have hd : (0 : ℚ) < (n : ℚ) - 1 := by
    have h2 : (2 : ℚ) ≤ (n : ℚ) := by exact_mod_cast hn
    linarith
  have hij2 : ((i : ℕ) : ℚ) ≤ ((j : ℕ) : ℚ) := by exact_mod_cast hij
  have key : ((t : ℚ) - (s : ℚ)) * (i : ℚ) / ((n : ℚ) - 1)
      ≤ ((t : ℚ) - (s : ℚ)) * (j : ℚ) / ((n : ℚ) - 1) :=
    (div_le_div_right hd).mpr (mul_le_mul_of_nonneg_left hij2 h0)
  linarith

theorem IntegerSlopeVal_anti_of_ge (s t n : ℕ) (hst : t < s) (hn : 2 ≤ n)
    (i j : ℕ) (hij : i ≤ j) :
    IntegerSlopeVal s t n j ≤ IntegerSlopeVal s t n i := by
  apply Int.toNat_le_toNat
  apply Int.floor_le_floor
  have h0 : (t : ℚ) - (s : ℚ) ≤ 0 := by
    have hc : (t : ℚ) ≤ (s : ℚ) := by exact_mod_cast hst.le
    linarith
  have hd : (0 : ℚ) < (n : ℚ) - 1 := by
    have h2 : (2 : ℚ) ≤ (n : ℚ) := by exact_mod_cast hn
    linarith
  have hij2 : ((i : ℕ) : ℚ) ≤ ((j : ℕ) : ℚ) := by exact_mod_cast hij
  have key : ((t : ℚ) - (s : ℚ)) * (j : ℚ) / ((n : ℚ) - 1)
      ≤ ((t : ℚ) - (s : ℚ)) * (i : ℚ) / ((n : ℚ) - 1) :=
    (div_le_div_right hd).mpr (mul_le_mul_of_nonpos_left hij2 h0)
  linarith

/-- C6: for 16-bit codes start and stop and n at least 2, IntegerSlope writes
start at index 0 and stop at index n-1, and the written sequence is
non-decreasing when start is at most stop and non-increasing otherwise. -/
theorem C6_integer_slope_endpoints_monotone (start stop n : ℕ) (buf : List ℕ)
    (hstart : start ≤ 65535) (hstop : stop ≤ 65535) (hn : 2 ≤ n)
    (hbuf : buf.length = n) :
    (IntegerSlope start stop n buf).getD 0 0 = start
    ∧ (IntegerSlope start stop n buf).getD (n - 1) 0 = stop
    ∧ (start ≤ stop → ∀ i j, i ≤ j → j < n →
        (IntegerSlope start stop n buf).getD i 0
          ≤ (IntegerSlope start stop n buf).getD j 0)
    ∧ (stop < start → ∀ i j, i ≤ j → j < n →
        (IntegerSlope start stop n buf).getD j 0
          ≤ (IntegerSlope start stop n buf).getD i 0) := by
  refine ⟨?_, ?_, ?_, ?_⟩
  · rw [IntegerSlope_getD start stop n buf 0 (by omega) (by omega)]
    exact IntegerSlopeVal_zero start stop n
  · rw [IntegerSlope_getD start stop n buf (n - 1) (by omega) (by omega)]
    exact IntegerSlopeVal_last start stop n hn
  · intro hst i j hij hj
    rw [IntegerSlope_getD start stop n buf i (by omega) (by omega),
        IntegerSlope_getD start stop n buf j (by omega) (by omega)]
    exact IntegerSlopeVal_mono_of_le start stop n hst hn i j hij
  · intro hst i j hij hj
    rw [IntegerSlope_getD start stop n buf i (by omega) (by omega),
        IntegerSlope_getD start stop n buf j (by omega) (by omega)]
    exact IntegerSlopeVal_anti_of_ge start stop n hst hn i j hij

/-- C6 witness: the slope from 0 to 10 over three samples. -/
theorem C6_integer_slope_endpoints_monotone_witness :
    (0 : ℕ) ≤ 65535 ∧ (10 : ℕ) ≤ 65535 ∧ (2 : ℕ) ≤ 3
    ∧ ([9, 9, 9] : List ℕ).length = 3
    ∧ ((IntegerSlope 0 10 3 [9, 9, 9]).getD 0 0 = 0
      ∧ (IntegerSlope 0 10 3 [9, 9, 9]).getD (3 - 1) 0 = 10
      ∧ ((0 : ℕ) ≤ 10 → ∀ i j, i ≤ j → j < 3 →
          (IntegerSlope 0 10 3 [9, 9, 9]).getD i 0
            ≤ (IntegerSlope 0 10 3 [9, 9, 9]).getD j 0)
      ∧ ((10 : ℕ) < 0 → ∀ i j, i ≤ j → j < 3 →
          (IntegerSlope 0 10 3 [9, 9, 9]).getD j 0
            ≤ (IntegerSlope 0 10 3 [9, 9, 9]).getD i 0)) :=
  ⟨by decide, by decide, by decide, by decide,
   C6_integer_slope_endpoints_monotone 0 10 3 [9, 9, 9] (by decide) (by decide)
     (by decide) (by decide)⟩

/-- C7: converting a voltage in [-10, 10] to a digital code and back moves it
by at most half the quantization step 20/65535. -/
theorem C7_codec_roundtrip (v : ℚ) (h1 : -10 ≤ v) (h2 : v ≤ 10) :
    |CountsToVolts (VoltsToCounts v) - v| ≤ 10 / 65535 := by
  have hk : (kMaxAmplitude : ℚ) = 65535 := by norm_num [kMaxAmplitude]
  have hnn : (0 : ℤ) ≤ Int.floor ((kMaxAmplitude : ℚ) * (v + 10) / 20 + 1 / 2) := by
    rw [Int.le_floor, hk]
    push_cast
    nlinarith
  have hcast : ((VoltsToCounts v : ℕ) : ℚ)
      = ((Int.floor ((kMaxAmplitude : ℚ) * (v + 10) / 20 + 1 / 2) : ℤ) : ℚ) := by
    unfold VoltsToCounts
    exact_mod_cast congrArg (fun z : ℤ => (z : ℚ)) (Int.toNat_of_nonneg hnn)
  have hub : ((Int.floor ((kMaxAmplitude : ℚ) * (v + 10) / 20 + 1 / 2) : ℤ) : ℚ)
      ≤ (kMaxAmplitude : ℚ) * (v + 10) / 20 + 1 / 2 := Int.floor_le _
  have hlb : (kMaxAmplitude : ℚ) * (v + 10) / 20 + 1 / 2 - 1
      < ((Int.floor ((kMaxAmplitude : ℚ) * (v + 10) / 20 + 1 / 2) : ℤ) : ℚ) :=
    Int.sub_one_lt_floor _
  rw [hk] at hub hlb
  unfold CountsToVolts
  rw [hcast, hk]
  rw [abs_le]
  constructor
  · linarith
  · linarith

/-- C7 witness: round trip at 3 volts. -/
theorem C7_codec_roundtrip_witness :
    (-10 : ℚ) ≤ 3 ∧ (3 : ℚ) ≤ 10
    ∧ |CountsToVolts (VoltsToCounts 3) - 3| ≤ 10 / 65535 :=
  ⟨by norm_num, by norm_num, C7_codec_roundtrip 3 (by norm_num) (by norm_num)⟩

/-- Concrete evaluation of the 10-sample full-range triangle request. -/
theorem triangle_10_eq :
    GenerateTriangleSignal 10 (-10) 10
      = [65535, 50972, 36408, 21845, 7282, 7282, 21845, 36408, 50972, 65535] := by
  norm_num [GenerateTriangleSignal, trianglePoint, kMaxAmplitude, List.range_succ,
    Int.toNat_ofNat, abs_of_nonneg]
  omega

/-- C8 counterexample: in the 10-sample full-range triangle the samples at
indices 4 and 5 are equal (both 7282), so the sequence does not strictly
decrease from index 4 to index 5. -/
theorem C8_counterexample :
    (GenerateTriangleSignal 10 (-10) 10).getD 4 0 = 7282
    ∧ (GenerateTriangleSignal 10 (-10) 10).getD 5 0 = 7282
    ∧ ¬ ((GenerateTriangleSignal 10 (-10) 10).getD 5 0
        < (GenerateTriangleSignal 10 (-10) 10).getD 4 0) := by
  rw [triangle_10_eq]
  refine ⟨rfl, rfl, by decide⟩

/-- C8 amended: GenerateTriangleSignal(10, -10, 10) strictly decreases over
indices 0 through 4, holds the equal minimum 7282 at indices 4 and 5,
strictly increases over indices 5 through 9, and attains the maximum 65535
at indices 0 and 9. -/
theorem C8_amended_triangle_shape :
    GenerateTriangleSignal 10 (-10) 10
      = [65535, 50972, 36408, 21845, 7282, 7282, 21845, 36408, 50972, 65535]
    ∧ ((GenerateTriangleSignal 10 (-10) 10).getD 1 0
        < (GenerateTriangleSignal 10 (-10) 10).getD 0 0
      ∧ (GenerateTriangleSignal 10 (-10) 10).getD 2 0
        < (GenerateTriangleSignal 10 (-10) 10).getD 1 0
      ∧ (GenerateTriangleSignal 10 (-10) 10).getD 3 0
        < (GenerateTriangleSignal 10 (-10) 10).getD 2 0
      ∧ (GenerateTriangleSignal 10 (-10) 10).getD 4 0
        < (GenerateTriangleSignal 10 (-10) 10).getD 3 0)
    ∧ (GenerateTriangleSignal 10 (-10) 10).getD 4 0
        = (GenerateTriangleSignal 10 (-10) 10).getD 5 0
    ∧ ((GenerateTriangleSignal 10 (-10) 10).getD 5 0
        < (GenerateTriangleSignal 10 (-10) 10).getD 6 0
      ∧ (GenerateTriangleSignal 10 (-10) 10).getD 6 0
        < (GenerateTriangleSignal 10 (-10) 10).getD 7 0
      ∧ (GenerateTriangleSignal 10 (-10) 10).getD 7 0
        < (GenerateTriangleSignal 10 (-10) 10).getD 8 0
      ∧ (GenerateTriangleSignal 10 (-10) 10).getD 8 0
        < (GenerateTriangleSignal 10 (-10) 10).getD 9 0)
    ∧ (GenerateTriangleSignal 10 (-10) 10).getD 0 0 = 65535
    ∧ (GenerateTriangleSignal 10 (-10) 10).getD 9 0 = 65535 := by
  refine ⟨triangle_10_eq, ?_, ?_, ?_, ?_, ?_⟩ <;> rw [triangle_10_eq] <;> decide
